import Mathlib

/-!
# Verification of the bateponto time-ledger core

Shallow embedding of the event-sourced time tracker:

* `src/core/storage.py` — the append-only event store and its range queries;
* `src/core/time_tracker.py` — `TimeTracker` live-session state and the
  replay-based duration reconstruction `calculate_project_time`;
* `src/utils/export.py` — the daily breakdown aggregation of
  `export_daily_breakdown_to_csv` (the value computation, not CSV writing);
* `src/utils/idle_detector.py` — one tick of the `_check_idle` watcher loop and
  `_on_activity`, together with the lock-acquire/release/callback trace they
  produce.

Timestamps are modelled as seconds (`Int`) on a linear clock; naive Python
`datetime` arithmetic makes every calendar day exactly 86400 seconds long, and
comparison of `%Y-%m-%d` date strings agrees with comparison of day indices.
A stored ISO-8601 timestamp string is modelled as either parseable to an
instant or malformed (`datetime.fromisoformat` raising `ValueError` is an
`Except.error`).  Each Python method reads the wall clock via `datetime.now()`;
the embedding passes that reading as an explicit `now` argument (a method that
reads the clock more than once gets one argument per distinct read where the
distinction matters).
-/

namespace Bateponto

/-- The `event` field of a stored entry (`"start"`, `"stop"`, `"auto_pause"`,
`"adjustment"`, `"pause_adjustment"`). -/
inductive EventKind where
  | start
  | stop
  | auto_pause
  | adjustment
  | pause_adjustment
deriving DecidableEq

/-- Model of the stored ISO-8601 timestamp string: either it parses to an
instant (seconds on the linear clock) or `datetime.fromisoformat` raises. -/
inductive RawTimestamp where
  | valid (t : Int)
  | malformed
deriving DecidableEq

/-- `datetime.fromisoformat(entry["timestamp"])`: returns the parsed instant or
raises (modelled as `Except.error`). -/
def parseTimestamp : RawTimestamp → Except String Int
  | .valid t => .ok t
  | .malformed => .error "ParseError"

/-- One stored time entry, as appended by `Storage.add_entry`.  `minutes` is
`none` when the key is absent (readers use `entry.get("minutes", 0)`). -/
structure Entry where
  project_id : String
  event : EventKind
  timestamp : RawTimestamp
  minutes : Option Int
  auto_pause : Bool
deriving DecidableEq

/-- The entry appended by `TimeTracker.start_project`. -/
def startEntry (pid : String) (now : Int) : Entry :=
  { project_id := pid, event := .start, timestamp := .valid now,
    minutes := none, auto_pause := false }

/-- The entry appended by `TimeTracker.stop_project` (`"auto_pause"` when
`auto_pause=True`, else `"stop"`). -/
def stopEntry (pid : String) (now : Int) (auto : Bool) : Entry :=
  { project_id := pid, event := if auto then .auto_pause else .stop,
    timestamp := .valid now, minutes := none, auto_pause := auto }

/-- `Storage.get_entries_by_date_range`: walks the whole log, parsing every
entry's timestamp (the first malformed one raises and aborts the query), and
keeps the entries with `start_date <= timestamp <= end_date`. -/
def get_entries_by_date_range (entries : List Entry) (start_date end_date : Int) :
    Except String (List Entry) :=
  match entries with
  | [] => .ok []
  | e :: rest =>
    match parseTimestamp e.timestamp with
    | .error msg => .error msg
    | .ok t =>
      match get_entries_by_date_range rest start_date end_date with
      | .error msg => .error msg
      | .ok filtered =>
        .ok (if start_date ≤ t ∧ t ≤ end_date then e :: filtered else filtered)

/-- `Storage.get_entries_by_project_and_date`: range filter, then keep the
entries whose `project_id` matches. -/
def get_entries_by_project_and_date (entries : List Entry) (project_id : String)
    (start_date end_date : Int) : Except String (List Entry) :=
  match get_entries_by_date_range entries start_date end_date with
  | .error msg => .error msg
  | .ok es => .ok (es.filter (fun e => e.project_id == project_id))

/-- In-memory state of a `TimeTracker` plus the entries list held by its
`Storage` (`time_entries.json`).  Durations are in seconds. -/
structure TrackerState where
  entries : List Entry
  current_project : Option String
  current_start : Option Int
  current_elapsed : Int
  paused_project : Option String
  pause_start : Option Int
deriving DecidableEq

/-- The state produced by `TimeTracker.__init__` over an empty store. -/
def initialState : TrackerState :=
  { entries := [], current_project := none, current_start := none,
    current_elapsed := 0, paused_project := none, pause_start := none }

/-- `Storage.add_entry`: append one entry at the end of the log. -/
def add_entry (s : TrackerState) (e : Entry) : TrackerState :=
  { s with entries := s.entries ++ [e] }

/-- Python truthiness of an optional project id: `None` and the empty string
are falsy (`if self.current_project:`). -/
def optTruthy : Option String → Bool
  | some str => !(str == "")
  | none => false

/-- `TimeTracker.stop_project(auto_pause)`: if no current project/start,
return `None` untouched; otherwise append a Stop (or AutoPause) entry at `now`,
clear the live session, and return the elapsed duration. -/
def stop_project (now : Int) (auto : Bool) (s : TrackerState) :
    TrackerState × Option Int :=
  match s.current_project, s.current_start with
  | some pid, some st =>
    if pid == "" then (s, none)
    else
      let s₁ := add_entry s (stopEntry pid now auto)
      (({ s₁ with current_project := none, current_start := none,
                  current_elapsed := 0 }),
       some (s.current_elapsed + (now - st)))
  | _, _ => (s, none)

/-- `TimeTracker.start_project(project_id)`: implicitly stop the live project
if any, set the live session to `{project_id, now, 0}`, append a Start event
at `now`, return `True`.  (The code reads the clock once inside the implicit
stop and once for the new session; both reads are modelled by `now`.) -/
def start_project (now : Int) (pid : String) (s : TrackerState) :
    TrackerState × Bool :=
  let s₁ := if optTruthy s.current_project then (stop_project now false s).1 else s
  let s₂ := { s₁ with current_project := some pid,
                      current_start := some now, current_elapsed := 0 }
  (add_entry s₂ (startEntry pid now), true)

/-- `TimeTracker.pause_project()`: failure if no live project; otherwise
snapshot `{paused_project, pause_start}` and stop with `auto_pause=True`. -/
def pause_project (now : Int) (s : TrackerState) : TrackerState × Bool :=
  if optTruthy s.current_project then
    let s₁ := { s with paused_project := s.current_project, pause_start := some now }
    ((stop_project now true s₁).1, true)
  else (s, false)

/-- The entry appended by `TimeTracker.resume_paused_project` when the pause
lasted at least one whole minute. -/
def pauseAdjEntry (pid : String) (now : Int) (pause_minutes : Int) : Entry :=
  { project_id := pid, event := .pause_adjustment, timestamp := .valid now,
    minutes := some (-pause_minutes), auto_pause := true }

/-- `TimeTracker.resume_paused_project()`: failure if no paused state;
otherwise clear it, compute `pause_minutes = int(pause_duration/60)`
(truncation toward zero, as Python `int()` of a float), append a
PauseAdjustment with `minutes = -pause_minutes` when `pause_minutes > 0`,
then `start_project` the same project. -/
def resume_paused_project (now : Int) (s : TrackerState) : TrackerState × Bool :=
  match s.paused_project, s.pause_start with
  | some pid, some ps =>
    if pid == "" then (s, false)
    else
      let s₁ := { s with paused_project := none, pause_start := none }
      let pause_minutes : Int := Int.tdiv (now - ps) 60
      let s₂ := if pause_minutes > 0 then
          add_entry s₁ (pauseAdjEntry pid now pause_minutes)
        else s₁
      start_project now pid s₂
  | _, _ => (s, false)

/-- The entry appended by `TimeTracker.add_adjustment`. -/
def adjustmentEntry (pid : String) (minutes : Int) (date : Int) : Entry :=
  { project_id := pid, event := .adjustment, timestamp := .valid date,
    minutes := some minutes, auto_pause := false }

/-- `TimeTracker.add_adjustment(project_id, minutes, description, date)`:
unconditionally append an Adjustment entry and return `True`. -/
def add_adjustment (s : TrackerState) (pid : String) (minutes : Int)
    (date : Int) : TrackerState × Bool :=
  (add_entry s (adjustmentEntry pid minutes date), true)

/-- `TimeTracker.get_current_project`. -/
def get_current_project (s : TrackerState) : Option String :=
  s.current_project

/-- The replay loop of `calculate_project_time`: walk the filtered entries,
parsing each timestamp; Start records `last_start`; Stop/AutoPause with a
pending `last_start` adds the interval and clears it; Adjustment and
PauseAdjustment add their signed minutes (60 s each). -/
def replay (entries : List Entry) (total : Int) (last_start : Option Int) :
    Except String (Int × Option Int) :=
  match entries with
  | [] => .ok (total, last_start)
  | e :: rest =>
    match parseTimestamp e.timestamp with
    | .error msg => .error msg
    | .ok ts =>
      match e.event with
      | .start => replay rest total (some ts)
      | .stop | .auto_pause =>
        match last_start with
        | some ls => replay rest (total + (ts - ls)) none
        | none => replay rest total none
      | .adjustment | .pause_adjustment =>
        replay rest (total + 60 * e.minutes.getD 0) last_start

/-- `TimeTracker.calculate_project_time(project_id, start_date, end_date)`:
query the store, replay, and if an unterminated Start remains while
`current_project == project_id`, add `(now - last_start)`. -/
def calculate_project_time (s : TrackerState) (now : Int) (project_id : String)
    (start_date end_date : Int) : Except String Int :=
  match get_entries_by_project_and_date s.entries project_id start_date end_date with
  | .error msg => .error msg
  | .ok entries =>
    match replay entries 0 none with
    | .error msg => .error msg
    | .ok (total, last_start) =>
      match last_start with
      | some ls =>
        if s.current_project = some project_id then .ok (total + (now - ls))
        else .ok total
      | none => .ok total

/-! ## Daily aggregation (`ReportExporter.export_daily_breakdown_to_csv`)

With naive `datetime` arithmetic every calendar day is exactly 86400 seconds;
`ts.strftime("%Y-%m-%d")` comparison/equality of two instants agrees with
comparison/equality of their day indices, and
`(t + timedelta(days=1)).replace(hour=0, ...)` is the midnight that starts the
day after `t`'s day. -/

/-- Day index of an instant (`strftime("%Y-%m-%d")` as a number; Python `//`
floor division matches `Int` `/` for the positive day length). -/
def dayOf (t : Int) : Int := t / 86400

/-- `t.replace(hour=0, minute=0, second=0, microsecond=0)`: the midnight
starting `t`'s day. -/
def midnightOf (t : Int) : Int := 86400 * dayOf t

/-- `(t + timedelta(days=1)).replace(hour=0, ...)`: the midnight after `t`'s
day. -/
def nextMidnight (t : Int) : Int := midnightOf (t + 86400)

/-- One project's slice of `daily_totals`: an insertion-ordered association
list from day index to accumulated seconds (a Python dict keyed by date). -/
abbrev DayTotals := List (Int × Int)

/-- Dict update `daily_totals[d][pid] += dur` (with `timedelta()` default):
add to the first binding of `d`, or append a new binding at the end. -/
def addToDay (dt : DayTotals) (d : Int) (dur : Int) : DayTotals :=
  match dt with
  | [] => [(d, dur)]
  | (d₀, v) :: rest =>
    if d₀ = d then (d₀, v + dur) :: rest else (d₀, v) :: addToDay rest d dur

/-- Dict read `daily_totals[d].get(pid, timedelta())`. -/
def lookupDay (dt : DayTotals) (d : Int) : Int :=
  match dt with
  | [] => 0
  | (d₀, v) :: rest => if d₀ = d then v else lookupDay rest d

/-- Total seconds attributed across all days. -/
def sumDays (dt : DayTotals) : Int :=
  match dt with
  | [] => 0
  | (_, v) :: rest => v + sumDays rest

/-- `dayOf` advances by one across `nextMidnight`. -/
theorem dayOf_nextMidnight (t : Int) : dayOf (nextMidnight t) = dayOf t + 1 := by
  unfold dayOf nextMidnight midnightOf dayOf
  omega

/-- `nextMidnight t` is the midnight of day `dayOf t + 1`. -/
theorem nextMidnight_eq (t : Int) : nextMidnight t = 86400 * (dayOf t + 1) := by
  unfold nextMidnight midnightOf dayOf
  omega

/-- The `while current.strftime("%Y-%m-%d") <= end_date_str` loop splitting a
session `[last_start, ts]` that spans several calendar days: the iteration for
the final day adds `(ts - midnight_of(ts))` (or the whole session if the final
day is also the first) and breaks; the iteration for the first day adds
`(next_day - current)`; every other iteration adds a full 24 hours; `current`
advances to the next midnight each round. -/
def splitLoop (ts last_start : Int) (current : Int) (dt : DayTotals) : DayTotals :=
  if dayOf current ≤ dayOf ts then
    if dayOf current = dayOf ts then
      if dayOf current = dayOf last_start then
        addToDay dt (dayOf current) (ts - last_start)
      else
        addToDay dt (dayOf current) (ts - midnightOf ts)
    else if dayOf current = dayOf last_start then
      splitLoop ts last_start (nextMidnight current)
        (addToDay dt (dayOf current) (nextMidnight current - current))
    else
      splitLoop ts last_start (nextMidnight current)
        (addToDay dt (dayOf current) 86400)
  else dt
termination_by (dayOf ts - dayOf current).toNat
decreasing_by
  all_goals
    rw [dayOf_nextMidnight]
    omega

/-- Accumulator of the per-project replay in
`export_daily_breakdown_to_csv`: the per-day totals built so far and the
pending `last_start`. -/
structure DailyAcc where
  dt : DayTotals
  last_start : Option Int
deriving DecidableEq

/-- One entry of the per-project daily replay: Start records `last_start`; a
terminating event with a pending `last_start` adds the session to its day (or
runs the multi-day split when the two instants fall on different days);
Adjustment/PauseAdjustment add their signed minutes to their own day. -/
def dailyStep (acc : DailyAcc) (e : Entry) : Except String DailyAcc :=
  match parseTimestamp e.timestamp with
  | .error msg => .error msg
  | .ok ts =>
    match e.event with
    | .start => .ok { acc with last_start := some ts }
    | .stop | .auto_pause =>
      match acc.last_start with
      | some ls =>
        if dayOf ls = dayOf ts then
          .ok { dt := addToDay acc.dt (dayOf ls) (ts - ls), last_start := none }
        else
          .ok { dt := splitLoop ts ls ls acc.dt, last_start := none }
      | none => .ok acc
    | .adjustment | .pause_adjustment =>
      .ok { acc with dt := addToDay acc.dt (dayOf ts) (60 * e.minutes.getD 0) }

/-- Run the per-project daily replay over that project's entries (the code
sorts them by timestamp first; the argument is that sorted list). -/
def dailyRun (entries : List Entry) (acc : DailyAcc) : Except String DailyAcc :=
  match entries with
  | [] => .ok acc
  | e :: rest =>
    match dailyStep acc e with
    | .error msg => .error msg
    | .ok acc₁ => dailyRun rest acc₁

/-- Per-day totals attributed to one project by
`export_daily_breakdown_to_csv`. -/
def dailyBreakdown (entries : List Entry) : Except String DayTotals :=
  match dailyRun entries { dt := [], last_start := none } with
  | .error msg => .error msg
  | .ok acc => .ok acc.dt

/-! ## Idle detection (`IdleDetector`)

`_on_activity` and one iteration of the `_check_idle` polling loop are
modelled as functions of the shared `{last_activity, is_idle}` pair, the local
`last_check`, and the instants returned by the `datetime.now()` calls.  Each
also produces the trace of lock acquisitions, lock releases, and callback
invocations it performs, in program order, so that the placement of callback
invocations relative to the lock's critical sections is part of the model. -/

/-- Which registered callback is being invoked. -/
inductive Callback where
  | idleCb
  | activeCb
deriving DecidableEq

/-- One observable action of the idle detector: taking the lock, releasing
it, or invoking a registered callback. -/
inductive Action where
  | acquire
  | release
  | invoke (c : Callback)
deriving DecidableEq

/-- The shared mutable pair guarded by `self.lock`. -/
structure IdleState where
  last_activity : Int
  is_idle : Bool
deriving DecidableEq

/-- `IdleDetector._on_activity`: under the lock, record the activity instant,
clear `is_idle`, and — still inside the `with self.lock` block — invoke the
active callback if the detector was idle and a callback is registered. -/
def onActivity (hasActiveCb : Bool) (st : IdleState) (now : Int) :
    IdleState × List Action :=
  ({ last_activity := now, is_idle := false },
   [Action.acquire] ++
     (if st.is_idle && hasActiveCb then [Action.invoke .activeCb] else []) ++
   [Action.release])

/-- One iteration of `IdleDetector._check_idle` with idle timeout `T` seconds.
`last_check` is the loop-local previous poll instant, `now` the first
`datetime.now()` read of the iteration and `now₂` the read inside the second
lock block.  First block (entered when the poll gap exceeds 5 seconds): if not
idle, a callback is registered, and the gap reaches the idle timeout, set
`is_idle`, backdate `last_activity` to `last_check`, and invoke the idle
callback inside the lock.  Second block: if not idle and
`now₂ - last_activity` reaches the timeout, set `is_idle` and invoke the idle
callback inside the lock.  Returns (shared state, new `last_check`, trace). -/
def checkIdleTick (T : Int) (hasIdleCb : Bool) (st : IdleState)
    (last_check now now₂ : Int) : IdleState × Int × List Action :=
  let (st₁, tr₁) :=
    if now - last_check > 5 then
      if !st.is_idle && hasIdleCb then
        if now - last_check ≥ T then
          ({ last_activity := last_check, is_idle := true },
           [Action.acquire, Action.invoke .idleCb, Action.release])
        else (st, [Action.acquire, Action.release])
      else (st, [Action.acquire, Action.release])
    else (st, [])
  let (st₂, tr₂) :=
    if !st₁.is_idle && now₂ - st₁.last_activity ≥ T then
      ({ st₁ with is_idle := true },
       [Action.acquire] ++
         (if hasIdleCb then [Action.invoke .idleCb] else []) ++
       [Action.release])
    else (st₁, [Action.acquire, Action.release])
  (st₂, now, tr₁ ++ tr₂)

/-- Number of idle-callback invocations in a trace. -/
def countIdleInvokes : List Action → Nat
  | [] => 0
  | Action.invoke .idleCb :: rest => 1 + countIdleInvokes rest
  | _ :: rest => countIdleInvokes rest

/-- `underLock tr d = true` iff, starting at lock-nesting depth `d`, every
callback invocation in `tr` happens at positive depth (inside a critical
section). -/
def underLock : List Action → Nat → Bool
  | [], _ => true
  | Action.acquire :: rest, d => underLock rest (d + 1)
  | Action.release :: rest, d => underLock rest (d - 1)
  | Action.invoke _ :: rest, d => decide (0 < d) && underLock rest d

/-- `outsideLock tr d = true` iff, starting at depth `d`, every callback
invocation in `tr` happens at depth 0 (outside any critical section). -/
def outsideLock : List Action → Nat → Bool
  | [], _ => true
  | Action.acquire :: rest, d => outsideLock rest (d + 1)
  | Action.release :: rest, d => outsideLock rest (d - 1)
  | Action.invoke _ :: rest, d => decide (d = 0) && outsideLock rest d

/-! ## Shapes of event sequences used in the claims -/

/-- One closed session: a Start at `p.1` followed by its terminating Stop
(or AutoPause, when `p.2.2` is true) at `p.2.1`. -/
def sessionPair (pid : String) (p : Int × Int × Bool) : List Entry :=
  [startEntry pid p.1, stopEntry pid p.2.1 p.2.2]

/-- An alternating sequence of paired Start / Stop-or-AutoPause events, with
no adjustment events: the event-log shape assumed by the pairing claim. -/
def pairedEvents (pid : String) (ps : List (Int × Int × Bool)) : List Entry :=
  match ps with
  | [] => []
  | p :: rest => sessionPair pid p ++ pairedEvents pid rest

/-- The exact sum of `(stop.ts - start.ts)` over a list of pairs. -/
def pairDurations (ps : List (Int × Int × Bool)) : Int :=
  match ps with
  | [] => 0
  | p :: rest => (p.2.1 - p.1) + pairDurations rest

/-- Pause/resume episode: from a fresh tracker, `start(pid)` at `t₀`,
`pause()` at `t₁`, `resume()` at `t₂`. -/
def afterResume (pid : String) (t₀ t₁ t₂ : Int) : TrackerState :=
  (resume_paused_project t₂
    (pause_project t₁ (start_project t₀ pid initialState).1).1).1

/-- The pause/resume episode closed by a final manual `stop()` at `t₃`. -/
def afterEpisode (pid : String) (t₀ t₁ t₂ t₃ : Int) : TrackerState :=
  (stop_project t₃ false (afterResume pid t₀ t₁ t₂)).1

/-- Double-pause scenario: from a fresh tracker, `start(A)` at `t₀`,
`pause()` at `t₁` (never resumed), `start(B)` at `t₂`, `pause()` at `t₃`. -/
def afterSecondPause (A B : String) (t₀ t₁ t₂ t₃ : Int) : TrackerState :=
  (pause_project t₃
    (start_project t₂ B (pause_project t₁ (start_project t₀ A initialState).1).1).1).1

/-! ## Helper lemmas -/

/-- Replaying an alternating paired sequence from a clear `last_start` adds
exactly the sum of the pair durations and ends with `last_start` clear. -/
theorem replay_pairedEvents (pid : String) (ps : List (Int × Int × Bool))
    (total : Int) :
    replay (pairedEvents pid ps) total none = .ok (total + pairDurations ps, none) := by
  induction ps generalizing total with
  | nil => simp [pairedEvents, replay, pairDurations]
  | cons p rest ih =>
    rcases p with ⟨ts₁, ts₂, auto⟩
    cases auto <;>
      simp [pairedEvents, sessionPair, replay, parseTimestamp, startEntry,
        stopEntry, pairDurations, ih] <;> ring_nf

/-- A malformed timestamp anywhere in the log makes the date-range query of
`Storage.get_entries_by_date_range` raise. -/
theorem range_query_error (entries : List Entry) (sd ed : Int)
    (h : ∃ e ∈ entries, e.timestamp = RawTimestamp.malformed) :
    get_entries_by_date_range entries sd ed = .error "ParseError" := by
  induction entries with
  | nil => simp at h
  | cons e rest ih =>
    rcases h with ⟨e', he', hm⟩
    rcases List.mem_cons.mp he' with rfl | hmem
    · simp only [get_entries_by_date_range, hm, parseTimestamp]
    · cases ht : e.timestamp with
      | malformed => simp only [get_entries_by_date_range, ht, parseTimestamp]
      | valid t =>
        simp only [get_entries_by_date_range, ht, parseTimestamp,
          ih ⟨e', hmem, hm⟩]

/-- Reading an updated day-totals dict: the updated day gains `dur`, every
other day is unchanged. -/
theorem lookupDay_addToDay (dt : DayTotals) (d dur d' : Int) :
    lookupDay (addToDay dt d dur) d' =
      lookupDay dt d' + (if d' = d then dur else 0) := by
  induction dt with
  | nil =>
    simp only [addToDay, lookupDay]
    split_ifs <;> omega
  | cons hd tl ih =>
    rcases hd with ⟨d₀, v₀⟩
    simp only [addToDay]
    split_ifs with h₀ <;> simp only [lookupDay, ih] <;> split_ifs <;> omega

/-- Updating a day-totals dict adds the contribution to the grand total. -/
theorem sumDays_addToDay (dt : DayTotals) (d dur : Int) :
    sumDays (addToDay dt d dur) = sumDays dt + dur := by
  induction dt with
  | nil => simp [addToDay, sumDays]
  | cons hd tl ih =>
    rcases hd with ⟨d₀, v₀⟩
    by_cases h₀ : d₀ = d <;> simp [addToDay, sumDays, h₀, ih] <;> ring

/-- Characterisation of the split loop started at a midnight strictly after
the session's first day: each remaining day before the final one gains a full
24 hours, the final day gains `(ts - midnight_of(ts))`, and the grand total
grows by the distance from that midnight to `ts`. -/
theorem splitLoop_from_midnight (ts ls : Int) (k : Nat) :
    ∀ (current : Int) (dt : DayTotals),
      current = 86400 * dayOf current →
      dayOf ls < dayOf current →
      dayOf current ≤ dayOf ts →
      dayOf ts - dayOf current = (k : Int) →
      (∀ d, lookupDay (splitLoop ts ls current dt) d =
          lookupDay dt d +
            (if dayOf current ≤ d ∧ d < dayOf ts then 86400
             else if d = dayOf ts then ts - midnightOf ts else 0)) ∧
      sumDays (splitLoop ts ls current dt) =
        sumDays dt + 86400 * (dayOf ts - dayOf current) + (ts - midnightOf ts) := by
  induction k with
  | zero =>
    intro current dt hmid hls hle hk
    have heq : dayOf current = dayOf ts := by omega
    rw [splitLoop.eq_def]
    rw [if_pos hle, if_pos heq, if_neg (by omega : ¬dayOf current = dayOf ls)]
    constructor
    · intro d
      rw [lookupDay_addToDay]
      split_ifs <;> omega
    · rw [sumDays_addToDay]
      have : midnightOf ts = 86400 * dayOf ts := rfl
      omega
  | succ k ih =>
    intro current dt hmid hls hle hk
    have hne : ¬dayOf current = dayOf ts := by omega
    rw [splitLoop.eq_def]
    rw [if_pos hle, if_neg hne, if_neg (by omega : ¬dayOf current = dayOf ls)]
    have hmid' : nextMidnight current = 86400 * dayOf (nextMidnight current) := by
      rw [dayOf_nextMidnight, nextMidnight_eq]
    have hday := dayOf_nextMidnight current
    obtain ⟨ihl, ihs⟩ := ih (nextMidnight current) (addToDay dt (dayOf current) 86400)
      hmid' (by omega) (by omega) (by omega)
    constructor
    · intro d
      rw [ihl d, lookupDay_addToDay, hday]
      split_ifs <;> omega
    · rw [ihs, sumDays_addToDay, hday]
      omega

/-! ## Claim theorems -/

/-- Claim C1: for every event log whose events for a project within the query
range form an alternating paired Start / Stop-or-AutoPause sequence (each
Start followed by its terminating event) with no adjustment events,
`calculate_project_time` returns exactly the sum of
`(stop.timestamp - start.timestamp)` over all pairs in the range. -/
theorem C1_paired_replay_sum (s : TrackerState) (now : Int) (pid : String)
    (sd ed : Int) (ps : List (Int × Int × Bool))
    (h : get_entries_by_project_and_date s.entries pid sd ed =
      Except.ok (pairedEvents pid ps)) :
    calculate_project_time s now pid sd ed = Except.ok (pairDurations ps) := by
  simp only [calculate_project_time, h, replay_pairedEvents, zero_add]

/-- Witness for C1: a log of two closed sessions (one ended by Stop, one by
AutoPause) of 60 seconds each totals 120 seconds. -/
theorem C1_paired_replay_sum_witness :
    get_entries_by_project_and_date
        (pairedEvents "p1" [(0, 60, false), (100, 160, true)]) "p1" 0 500 =
      Except.ok (pairedEvents "p1" [(0, 60, false), (100, 160, true)]) ∧
    calculate_project_time
        ⟨pairedEvents "p1" [(0, 60, false), (100, 160, true)],
         none, none, 0, none, none⟩ 1000 "p1" 0 500 = Except.ok 120 := by
  constructor
  · rfl
  · have h := C1_paired_replay_sum
      ⟨pairedEvents "p1" [(0, 60, false), (100, 160, true)],
       none, none, 0, none, none⟩ 1000 "p1" 0 500
      [(0, 60, false), (100, 160, true)] (by rfl)
    rw [h]
    rfl

/-- Claim C4: a malformed timestamp in the log makes the date-range query and
`calculate_project_time` fail as a whole with a parse error; the query never
skips the malformed event and returns a partial total.  (The code parses every
stored entry while filtering, so this holds for a malformed event anywhere in
the log — in particular for one inside the queried range.) -/
theorem C4_malformed_fails_whole_query (s : TrackerState) (now : Int)
    (pid : String) (sd ed : Int)
    (h : ∃ e ∈ s.entries, e.timestamp = RawTimestamp.malformed) :
    get_entries_by_date_range s.entries sd ed = Except.error "ParseError" ∧
    get_entries_by_project_and_date s.entries pid sd ed =
      Except.error "ParseError" ∧
    calculate_project_time s now pid sd ed = Except.error "ParseError" ∧
    ∀ t : Int, calculate_project_time s now pid sd ed ≠ Except.ok t := by
  have h1 := range_query_error s.entries sd ed h
  have h2 : get_entries_by_project_and_date s.entries pid sd ed =
      Except.error "ParseError" := by
    simp only [get_entries_by_project_and_date, h1]
  have h3 : calculate_project_time s now pid sd ed = Except.error "ParseError" := by
    simp only [calculate_project_time, h2]
  refine ⟨h1, h2, h3, fun t hc => ?_⟩
  rw [h3] at hc
  exact Except.noConfusion hc

/-- Witness for C4: a log holding a well-formed Start and an entry whose
timestamp does not parse; the range query over it errors out. -/
theorem C4_malformed_fails_whole_query_witness :
    (∃ e ∈ (⟨[startEntry "p1" 10,
        ⟨"p1", EventKind.stop, RawTimestamp.malformed, none, false⟩],
        none, none, 0, none, none⟩ : TrackerState).entries,
      e.timestamp = RawTimestamp.malformed) ∧
    calculate_project_time
      (⟨[startEntry "p1" 10,
          ⟨"p1", EventKind.stop, RawTimestamp.malformed, none, false⟩],
        none, none, 0, none, none⟩ : TrackerState) 50 "p1" 0 100 =
      Except.error "ParseError" := by
  refine ⟨⟨⟨"p1", EventKind.stop, RawTimestamp.malformed, none, false⟩,
    by simp, rfl⟩, ?_⟩
  exact (C4_malformed_fails_whole_query _ 50 "p1" 0 100
    ⟨⟨"p1", EventKind.stop, RawTimestamp.malformed, none, false⟩,
      by simp, rfl⟩).2.2.1

/-- Claim C5: when project `A` is live, `start(B)` with `B ≠ A` appends a Stop
for `A` at the switch instant followed by a Start for `B`, sets the live
session to `{B, now, 0}`, succeeds, makes `current_project()` return `B`, and
`calculate_project_time(A, ...)` over any range no longer depends on the query
instant — no live time accrues to `A` after the switch. -/
theorem C5_switch_auto_stops (s : TrackerState) (A B : String) (now t₀ : Int)
    (hA : s.current_project = some A) (hAne : A ≠ "")
    (hst : s.current_start = some t₀) (hBA : B ≠ A) :
    (start_project now B s).2 = true ∧
    (start_project now B s).1.entries =
      s.entries ++ [stopEntry A now false, startEntry B now] ∧
    get_current_project (start_project now B s).1 = some B ∧
    (start_project now B s).1.current_start = some now ∧
    (start_project now B s).1.current_elapsed = 0 ∧
    ∀ sd ed now₁ now₂,
      calculate_project_time (start_project now B s).1 now₁ A sd ed =
        calculate_project_time (start_project now B s).1 now₂ A sd ed := by
  have hbeq : (A == "") = false := beq_eq_false_iff_ne.mpr hAne
  have hs' : start_project now B s =
      ({ s with entries := s.entries ++ [stopEntry A now false, startEntry B now],
                current_project := some B, current_start := some now,
                current_elapsed := 0 }, true) := by
    simp [start_project, optTruthy, hA, hbeq, stop_project, hst, add_entry]
  refine ⟨by rw [hs'], by rw [hs'], by rw [hs']; rfl, by rw [hs'], by rw [hs'], ?_⟩
  intro sd ed now₁ now₂
  rw [hs']
  simp only [calculate_project_time]
  cases hq : get_entries_by_project_and_date
      (s.entries ++ [stopEntry A now false, startEntry B now]) A sd ed with
  | error m => rfl
  | ok es =>
    cases hr : replay es 0 none with
    | error m => simp [hr]
    | ok pr =>
      rcases pr with ⟨total, last⟩
      cases last with
      | none => simp [hr]
      | some ls => simp [hr, hBA]

/-- Witness for C5: switching from `"a"` to `"b"` at instant 100. -/
theorem C5_switch_auto_stops_witness :
    (start_project 100 "b"
      { entries := [startEntry "a" 0], current_project := some "a",
        current_start := some 0, current_elapsed := 0,
        paused_project := none, pause_start := none }).1.entries =
      [startEntry "a" 0] ++ [stopEntry "a" 100 false, startEntry "b" 100] ∧
    get_current_project (start_project 100 "b"
      { entries := [startEntry "a" 0], current_project := some "a",
        current_start := some 0, current_elapsed := 0,
        paused_project := none, pause_start := none }).1 = some "b" := by
  have h := C5_switch_auto_stops
    { entries := [startEntry "a" 0], current_project := some "a",
      current_start := some 0, current_elapsed := 0,
      paused_project := none, pause_start := none }
    "a" "b" 100 0 rfl (by decide) rfl (by decide)
  exact ⟨h.2.1, h.2.2.1⟩

/-- Claim C6: when no live session exists, `pause()` returns failure and
leaves the whole tracker state — live-session fields, paused-state fields and
the event log — exactly unchanged. -/
theorem C6_pause_without_session (s : TrackerState) (now : Int)
    (h : s.current_project = none) :
    pause_project now s = (s, false) := by
  simp [pause_project, optTruthy, h]

/-- Witness for C6: pausing the freshly initialised tracker is a failing
no-op. -/
theorem C6_pause_without_session_witness :
    initialState.current_project = none ∧
    pause_project 42 initialState = (initialState, false) :=
  ⟨rfl, C6_pause_without_session initialState 42 rfl⟩

/-- Claim C9: `start(p)` while `p` itself is live is not a no-op: it appends a
Stop for `p` (closing the running interval in the log) followed by a fresh
Start, and resets the live session's start to `now` and its accumulated
duration to zero. -/
theorem C9_restart_same_project (s : TrackerState) (p : String) (now t₀ : Int)
    (hp : s.current_project = some p) (hpne : p ≠ "")
    (hst : s.current_start = some t₀) :
    start_project now p s =
      ({ s with entries := s.entries ++ [stopEntry p now false, startEntry p now],
                current_project := some p, current_start := some now,
                current_elapsed := 0 }, true) ∧
    (start_project now p s).1.entries ≠ s.entries := by
  have hbeq : (p == "") = false := beq_eq_false_iff_ne.mpr hpne
  have hs' : start_project now p s =
      ({ s with entries := s.entries ++ [stopEntry p now false, startEntry p now],
                current_project := some p, current_start := some now,
                current_elapsed := 0 }, true) := by
    simp [start_project, optTruthy, hp, hbeq, stop_project, hst, add_entry]
  refine ⟨hs', ?_⟩
  rw [hs']
  intro hc
  have := congrArg List.length hc
  simp at this

/-- Witness for C9: restarting `"a"` at instant 100 while it is live since 0
closes and reopens it in the log and resets the session start. -/
theorem C9_restart_same_project_witness :
    start_project 100 "a"
      { entries := [startEntry "a" 0], current_project := some "a",
        current_start := some 0, current_elapsed := 0,
        paused_project := none, pause_start := none } =
      ({ entries := [startEntry "a" 0] ++ [stopEntry "a" 100 false, startEntry "a" 100],
         current_project := some "a", current_start := some 100,
         current_elapsed := 0, paused_project := none, pause_start := none }, true) :=
  (C9_restart_same_project
    { entries := [startEntry "a" 0], current_project := some "a",
      current_start := some 0, current_elapsed := 0,
      paused_project := none, pause_start := none }
    "a" 100 0 rfl (by decide) rfl).1

/-- Claim C10: an unresumed paused state for project `A` is silently
overwritten when a later-live project `B` is paused: after the second
`pause()`, the paused state names `B` with the second pause instant; a
subsequent `resume()` succeeds and resumes `B`; and no PauseAdjustment for
`A`'s pause episode ever appears in the log. -/
theorem C10_pause_state_overwritten (A B : String) (t₀ t₁ t₂ t₃ t₄ : Int)
    (hA : A ≠ "") (hB : B ≠ "") (hAB : A ≠ B) :
    (pause_project t₁ (start_project t₀ A initialState).1).1.paused_project = some A ∧
    (afterSecondPause A B t₀ t₁ t₂ t₃).paused_project = some B ∧
    (afterSecondPause A B t₀ t₁ t₂ t₃).pause_start = some t₃ ∧
    (resume_paused_project t₄ (afterSecondPause A B t₀ t₁ t₂ t₃)).2 = true ∧
    (resume_paused_project t₄ (afterSecondPause A B t₀ t₁ t₂ t₃)).1.current_project =
      some B ∧
    ∀ e ∈ (resume_paused_project t₄ (afterSecondPause A B t₀ t₁ t₂ t₃)).1.entries,
      e.event = EventKind.pause_adjustment → e.project_id ≠ A := by
  have hAbeq : (A == "") = false := beq_eq_false_iff_ne.mpr hA
  have hBbeq : (B == "") = false := beq_eq_false_iff_ne.mpr hB
  have h₁ : (start_project t₀ A initialState).1 =
      { entries := [startEntry A t₀], current_project := some A,
        current_start := some t₀, current_elapsed := 0,
        paused_project := none, pause_start := none } := by
    simp [start_project, initialState, optTruthy, add_entry]
  have h₂ : (pause_project t₁ (start_project t₀ A initialState).1).1 =
      { entries := [startEntry A t₀, stopEntry A t₁ true], current_project := none,
        current_start := none, current_elapsed := 0,
        paused_project := some A, pause_start := some t₁ } := by
    rw [h₁]
    simp [pause_project, optTruthy, hAbeq, stop_project, add_entry]
  have h₃ : afterSecondPause A B t₀ t₁ t₂ t₃ =
      { entries := [startEntry A t₀, stopEntry A t₁ true, startEntry B t₂,
          stopEntry B t₃ true],
        current_project := none, current_start := none, current_elapsed := 0,
        paused_project := some B, pause_start := some t₃ } := by
    rw [afterSecondPause, h₂]
    simp [start_project, pause_project, optTruthy, hBbeq, stop_project, add_entry]
  refine ⟨by rw [h₂], by rw [h₃], by rw [h₃], ?_, ?_, ?_⟩ <;> rw [h₃] <;>
    simp only [resume_paused_project, hBbeq, Bool.false_eq_true, if_false]
  · by_cases hm : Int.tdiv (t₄ - t₃) 60 > 0 <;>
      simp [hm, start_project, optTruthy, add_entry]
  · by_cases hm : Int.tdiv (t₄ - t₃) 60 > 0 <;>
      simp [hm, start_project, optTruthy, add_entry]
  · by_cases hm : Int.tdiv (t₄ - t₃) 60 > 0 <;>
      simp [hm, start_project, optTruthy, add_entry, pauseAdjEntry, startEntry,
        stopEntry, hAB, Ne.symm hAB]

/-- Witness for C10: `A = "a"`, `B = "b"`, pauses at 100 and 300, resume at
400. -/
theorem C10_pause_state_overwritten_witness :
    (afterSecondPause "a" "b" 0 100 200 300).paused_project = some "b" ∧
    (resume_paused_project 400 (afterSecondPause "a" "b" 0 100 200 300)).1.current_project =
      some "b" := by
  have h := C10_pause_state_overwritten "a" "b" 0 100 200 300 400
    (by decide) (by decide) (by decide)
  exact ⟨h.2.1, h.2.2.2.2.1⟩

/-- Claim C2: for a live session started at `t₀`, paused at `t₁` and resumed
at `t₂` with `D = t₂ - t₁`: when `D ≥ 1` minute the resume appends a
PauseAdjustment with `minutes = -floor(D in minutes)` at the resume instant,
and the total computed by `calculate_project_time` over a range covering the
episode (closed by a Stop at `t₃`) is `naive_elapsed - floor(D in minutes)`
minutes, where `naive_elapsed = (t₁ - t₀) + (t₃ - t₂)` is the replay total of
the episode's Start/Stop pairs alone (final conjunct); when `D < 1` minute no
PauseAdjustment is appended and the total is `naive_elapsed` itself.
(`Int.tdiv D 60` is Python `int(D/60)`, which is `floor` for `D ≥ 0`.) -/
theorem C2_pause_resume_adjustment (pid : String) (t₀ t₁ t₂ t₃ sd ed now : Int)
    (hpid : pid ≠ "") (h01 : t₀ ≤ t₁) (h12 : t₁ ≤ t₂) (h23 : t₂ ≤ t₃)
    (hsd : sd ≤ t₀) (hed : t₃ ≤ ed) :
    (60 ≤ t₂ - t₁ →
      (afterResume pid t₀ t₁ t₂).entries =
        [startEntry pid t₀, stopEntry pid t₁ true,
         pauseAdjEntry pid t₂ (Int.tdiv (t₂ - t₁) 60), startEntry pid t₂] ∧
      calculate_project_time (afterEpisode pid t₀ t₁ t₂ t₃) now pid sd ed =
        Except.ok (((t₁ - t₀) + (t₃ - t₂)) - 60 * Int.tdiv (t₂ - t₁) 60)) ∧
    (0 ≤ t₂ - t₁ → t₂ - t₁ < 60 →
      (afterResume pid t₀ t₁ t₂).entries =
        [startEntry pid t₀, stopEntry pid t₁ true, startEntry pid t₂] ∧
      (∀ e ∈ (afterResume pid t₀ t₁ t₂).entries,
        e.event ≠ EventKind.pause_adjustment) ∧
      calculate_project_time (afterEpisode pid t₀ t₁ t₂ t₃) now pid sd ed =
        Except.ok ((t₁ - t₀) + (t₃ - t₂))) ∧
    replay [startEntry pid t₀, stopEntry pid t₁ true,
            startEntry pid t₂, stopEntry pid t₃ false] 0 none =
      Except.ok ((t₁ - t₀) + (t₃ - t₂), none) := by
  have hpe : (pid == "") = false := beq_eq_false_iff_ne.mpr hpid
  have h₁ : (start_project t₀ pid initialState).1 =
      { entries := [startEntry pid t₀], current_project := some pid,
        current_start := some t₀, current_elapsed := 0,
        paused_project := none, pause_start := none } := by
    simp [start_project, initialState, optTruthy, add_entry]
  have h₂ : (pause_project t₁ (start_project t₀ pid initialState).1).1 =
      { entries := [startEntry pid t₀, stopEntry pid t₁ true],
        current_project := none, current_start := none, current_elapsed := 0,
        paused_project := some pid, pause_start := some t₁ } := by
    rw [h₁]
    simp [pause_project, optTruthy, hpe, stop_project, add_entry]
  have hin : ∀ t : Int, t₀ ≤ t → t ≤ t₃ → (sd ≤ t ∧ t ≤ ed) := by
    intro t hl hr
    constructor <;> omega
  refine ⟨fun hD => ?_, fun hD0 hD => ?_, ?_⟩
  · have hm : 0 < Int.tdiv (t₂ - t₁) 60 := by
      rw [Int.tdiv_eq_ediv (by omega) (by omega)]
      omega
    have h₃ : afterResume pid t₀ t₁ t₂ =
        { entries := [startEntry pid t₀, stopEntry pid t₁ true,
            pauseAdjEntry pid t₂ (Int.tdiv (t₂ - t₁) 60), startEntry pid t₂],
          current_project := some pid, current_start := some t₂,
          current_elapsed := 0, paused_project := none, pause_start := none } := by
      rw [afterResume, h₂]
      simp [resume_paused_project, hpe, hm, start_project, optTruthy, add_entry]
    have h₄ : afterEpisode pid t₀ t₁ t₂ t₃ =
        { entries := [startEntry pid t₀, stopEntry pid t₁ true,
            pauseAdjEntry pid t₂ (Int.tdiv (t₂ - t₁) 60), startEntry pid t₂,
            stopEntry pid t₃ false],
          current_project := none, current_start := none, current_elapsed := 0,
          paused_project := none, pause_start := none } := by
      rw [afterEpisode, h₃]
      simp [stop_project, hpe, add_entry]
    refine ⟨by rw [h₃], ?_⟩
    rw [h₄]
    simp only [calculate_project_time, get_entries_by_project_and_date,
      get_entries_by_date_range, parseTimestamp, startEntry, stopEntry,
      pauseAdjEntry, hin t₀ le_rfl (by omega), hin t₁ (by omega) (by omega),
      hin t₂ (by omega) (by omega), hin t₃ (by omega) le_rfl, if_true,
      List.filter, beq_self_eq_true, replay, Option.getD]
    simp only [Bool.false_eq_true, if_false]
    simp only [Except.ok.injEq]
    ring
  · have hm : ¬(0 < Int.tdiv (t₂ - t₁) 60) := by
      rw [Int.tdiv_eq_ediv (by omega) (by omega)]
      omega
    have h₃ : afterResume pid t₀ t₁ t₂ =
        { entries := [startEntry pid t₀, stopEntry pid t₁ true, startEntry pid t₂],
          current_project := some pid, current_start := some t₂,
          current_elapsed := 0, paused_project := none, pause_start := none } := by
      rw [afterResume, h₂]
      simp [resume_paused_project, hpe, hm, start_project, optTruthy, add_entry]
    have h₄ : afterEpisode pid t₀ t₁ t₂ t₃ =
        { entries := [startEntry pid t₀, stopEntry pid t₁ true,
            startEntry pid t₂, stopEntry pid t₃ false],
          current_project := none, current_start := none, current_elapsed := 0,
          paused_project := none, pause_start := none } := by
      rw [afterEpisode, h₃]
      simp [stop_project, hpe, add_entry]
    refine ⟨by rw [h₃], ?_, ?_⟩
    · rw [h₃]
      simp [startEntry, stopEntry]
    · rw [h₄]
      simp only [calculate_project_time, get_entries_by_project_and_date,
        get_entries_by_date_range, parseTimestamp, startEntry, stopEntry,
        hin t₀ le_rfl (by omega), hin t₁ (by omega) (by omega),
        hin t₂ (by omega) (by omega), hin t₃ (by omega) le_rfl, if_true,
        List.filter, beq_self_eq_true, replay]
      simp only [Bool.false_eq_true, if_false]
      simp only [Except.ok.injEq]
      ring
  · simp only [replay, parseTimestamp, startEntry, stopEntry]
    simp only [Bool.false_eq_true, if_false, if_true]
    simp only [Except.ok.injEq, Prod.mk.injEq]
    constructor
    · ring
    · trivial

/-- Witness for C2: session 0–3600, paused 3600–3720 (two whole minutes),
resumed 3720, stopped 7320: the computed total is 7080 s = 3600 + 3600 - 120,
and the pause adjustment of `-2` minutes appears at the resume instant. -/
theorem C2_pause_resume_adjustment_witness :
    (afterResume "p1" 0 3600 3720).entries =
      [startEntry "p1" 0, stopEntry "p1" 3600 true,
       pauseAdjEntry "p1" 3720 (Int.tdiv (3720 - 3600) 60), startEntry "p1" 3720] ∧
    calculate_project_time (afterEpisode "p1" 0 3600 3720 7320) 9999 "p1" 0 8000 =
      Except.ok (((3600 - 0) + (7320 - 3720)) - 60 * Int.tdiv (3720 - 3600) 60) := by
  exact (C2_pause_resume_adjustment "p1" 0 3600 3720 7320 0 8000 9999
    (by decide) (by decide) (by decide) (by decide) (by decide) (by decide)).1
    (by decide)

/-- Claim C3: a session whose Start and terminating Stop fall on different
calendar days is split by the daily aggregator: the first day gets
`(midnight_after(start) - start)`, every fully-enclosed intervening day gets a
full 24 hours, the final day gets `(stop - midnight_of(stop))`, and the
attributed amounts sum exactly to the session length.  In particular a 23:00
to 02:00 session yields 1h00m on day one and 2h00m on day two (witness). -/
theorem C3_multiday_session_split (p : String) (t₁ t₂ : Int)
    (hspan : dayOf t₁ < dayOf t₂) :
    dailyBreakdown [startEntry p t₁, stopEntry p t₂ false] =
      Except.ok (splitLoop t₂ t₁ t₁ []) ∧
    lookupDay (splitLoop t₂ t₁ t₁ []) (dayOf t₁) = nextMidnight t₁ - t₁ ∧
    (∀ d, dayOf t₁ < d → d < dayOf t₂ →
      lookupDay (splitLoop t₂ t₁ t₁ []) d = 86400) ∧
    lookupDay (splitLoop t₂ t₁ t₁ []) (dayOf t₂) = t₂ - midnightOf t₂ ∧
    sumDays (splitLoop t₂ t₁ t₁ []) = t₂ - t₁ := by
  have hne : ¬dayOf t₁ = dayOf t₂ := by omega
  have hstep : splitLoop t₂ t₁ t₁ [] =
      splitLoop t₂ t₁ (nextMidnight t₁) [(dayOf t₁, nextMidnight t₁ - t₁)] := by
    rw [splitLoop.eq_def]
    rw [if_pos (by omega : dayOf t₁ ≤ dayOf t₂), if_neg hne, if_pos rfl]
    rfl
  obtain ⟨hl, hs⟩ := splitLoop_from_midnight t₂ t₁ (dayOf t₂ - dayOf t₁ - 1).toNat
    (nextMidnight t₁) [(dayOf t₁, nextMidnight t₁ - t₁)]
    (by rw [dayOf_nextMidnight, nextMidnight_eq])
    (by rw [dayOf_nextMidnight]; omega)
    (by rw [dayOf_nextMidnight]; omega)
    (by rw [dayOf_nextMidnight]; omega)
  refine ⟨?_, ?_, ?_, ?_, ?_⟩
  · simp [dailyBreakdown, dailyRun, dailyStep, parseTimestamp, startEntry,
      stopEntry, hne]
  · rw [hstep, hl (dayOf t₁), dayOf_nextMidnight]
    simp only [lookupDay]
    split_ifs <;> omega
  · intro d hd₁ hd₂
    rw [hstep, hl d, dayOf_nextMidnight]
    simp only [lookupDay]
    split_ifs <;> omega
  · rw [hstep, hl (dayOf t₂), dayOf_nextMidnight]
    simp only [lookupDay]
    split_ifs <;> omega
  · rw [hstep, hs, dayOf_nextMidnight, nextMidnight_eq]
    simp only [sumDays]
    have hm₂ : midnightOf t₂ = 86400 * dayOf t₂ := rfl
    omega

/-- Witness for C3: a session from 23:00 (82800 s) to 02:00 the next day
(93600 s) gives day 0 exactly 3600 s = 1h00m, day 1 exactly 7200 s = 2h00m,
and their sum 10800 s = 3h00m, the session length. -/
theorem C3_multiday_session_split_witness :
    dailyBreakdown [startEntry "p1" 82800, stopEntry "p1" 93600 false] =
      Except.ok (splitLoop 93600 82800 82800 []) ∧
    lookupDay (splitLoop 93600 82800 82800 []) 0 = 3600 ∧
    lookupDay (splitLoop 93600 82800 82800 []) 1 = 7200 ∧
    sumDays (splitLoop 93600 82800 82800 []) = 10800 := by
  have h := C3_multiday_session_split "p1" 82800 93600 (by decide)
  have e₁ : dayOf (82800 : Int) = 0 := by decide
  have e₂ : dayOf (93600 : Int) = 1 := by decide
  have e₃ : nextMidnight (82800 : Int) - 82800 = 3600 := by decide
  have e₄ : (93600 : Int) - midnightOf 93600 = 7200 := by decide
  refine ⟨h.1, ?_, ?_, ?_⟩
  · have := h.2.1
    rw [e₁, e₃] at this
    exact this
  · have := h.2.2.2.1
    rw [e₂, e₄] at this
    exact this
  · have := h.2.2.2.2
    omega

/-- Claim C7 (amended): a poll gap triggers the sleep-gap path only when it
exceeds both the 5-second sleep-gap threshold and the idle timeout.  When the
gap is `idle_timeout + 1` seconds (with `idle_timeout ≥ 5` s, the detector not
idle and an idle callback registered), exactly one idle callback fires in the
tick and `last_activity` is backdated to the previous poll time, the gap's
beginning; and while `is_idle` remains set (no activity arriving), further
ticks fire no additional idle callback and leave the shared state unchanged,
so the episode sees exactly one.  A gap of `sleep_threshold + 1 = 6` seconds
below the idle timeout fires nothing (counterexample). -/
theorem C7_sleep_gap_backdate :
    (∀ (T : Int) (st : IdleState) (last_check now now₂ : Int),
      5 ≤ T → st.is_idle = false → now - last_check = T + 1 →
      countIdleInvokes (checkIdleTick T true st last_check now now₂).2.2 = 1 ∧
      (checkIdleTick T true st last_check now now₂).1.last_activity = last_check ∧
      (checkIdleTick T true st last_check now now₂).1.is_idle = true) ∧
    (∀ (T : Int) (cb : Bool) (st : IdleState) (last_check now now₂ : Int),
      st.is_idle = true →
      countIdleInvokes (checkIdleTick T cb st last_check now now₂).2.2 = 0 ∧
      (checkIdleTick T cb st last_check now now₂).1 = st) := by
  constructor
  · intro T st lc now now₂ hT hidle hgap
    have h₅ : now - lc > 5 := by omega
    have hge : now - lc ≥ T := by omega
    simp [checkIdleTick, h₅, hge, hidle, countIdleInvokes]
  · intro T cb st lc now now₂ hidle
    obtain ⟨la, idl⟩ := st
    simp only at hidle
    subst hidle
    simp only [checkIdleTick]
    split_ifs <;> simp_all [countIdleInvokes]

/-- Witness for C7: `idle_timeout = 300` s and a poll gap of 301 s with no
activity: one idle callback, `last_activity` backdated to the previous poll
time 0, `is_idle` set. -/
theorem C7_sleep_gap_backdate_witness :
    countIdleInvokes (checkIdleTick 300 true ⟨7, false⟩ 0 301 301).2.2 = 1 ∧
    (checkIdleTick 300 true ⟨7, false⟩ 0 301 301).1.last_activity = 0 ∧
    (checkIdleTick 300 true ⟨7, false⟩ 0 301 301).1.is_idle = true :=
  C7_sleep_gap_backdate.1 300 ⟨7, false⟩ 0 301 301 (by decide) rfl (by decide)

/-- Counterexample to C7 as stated: with the default 5-minute idle timeout, a
poll gap of exactly `sleep_threshold + 1 = 5 + 1 = 6` seconds (previous poll
at 3, current at 9, last activity at 0, not idle, callback registered) fires
zero idle callbacks — not one — and `last_activity` stays 0 instead of being
backdated to the gap's beginning 3: the sleep-gap branch also requires the gap
to reach the idle timeout. -/
theorem C7_sleep_gap_counterexample :
    (9 : Int) - 3 = 5 + 1 ∧
    countIdleInvokes (checkIdleTick 300 true ⟨0, false⟩ 3 9 9).2.2 = 0 ∧
    (checkIdleTick 300 true ⟨0, false⟩ 3 9 9).1 = ⟨0, false⟩ ∧
    (checkIdleTick 300 true ⟨0, false⟩ 3 9 9).1.last_activity ≠ 3 := by
  decide

/-- Claim C8 (amended): the callbacks are invoked while the lock is held —
in `_on_activity` and in both blocks of `_check_idle`, every idle/resume
callback invocation happens strictly inside the lock's critical section, never
outside it. -/
theorem C8_callbacks_inside_lock :
    (∀ (cb : Bool) (st : IdleState) (now : Int),
      underLock (onActivity cb st now).2 0 = true) ∧
    (∀ (T : Int) (cb : Bool) (st : IdleState) (lc now now₂ : Int),
      underLock (checkIdleTick T cb st lc now now₂).2.2 0 = true) := by
  constructor
  · intro cb st now
    by_cases h : (st.is_idle && cb) = true <;> simp [onActivity, h, underLock]
  · intro T cb st lc now now₂
    simp only [checkIdleTick]
    split_ifs <;> simp [underLock]

/-- Witness for C8 (amended): a concrete `_on_activity` run and a concrete
`_check_idle` tick whose callback invocations are all inside the critical
section. -/
theorem C8_callbacks_inside_lock_witness :
    underLock (onActivity true ⟨0, true⟩ 5).2 0 = true ∧
    underLock (checkIdleTick 300 true ⟨0, false⟩ 0 301 301).2.2 0 = true :=
  ⟨C8_callbacks_inside_lock.1 true ⟨0, true⟩ 5,
   C8_callbacks_inside_lock.2 300 true ⟨0, false⟩ 0 301 301⟩

/-- Counterexample to C8 as stated: resuming activity while idle produces the
trace acquire–invoke–release, i.e. the active callback is invoked between the
lock acquisition and its release; the execution is not invocation-free inside
the critical section. -/
theorem C8_callbacks_inside_lock_counterexample :
    (onActivity true ⟨0, true⟩ 5).2 =
      [Action.acquire, Action.invoke Callback.activeCb, Action.release] ∧
    outsideLock (onActivity true ⟨0, true⟩ 5).2 0 = false ∧
    underLock (onActivity true ⟨0, true⟩ 5).2 0 = true := by
  decide

end Bateponto
